import Mathlib

/-!
Verification model of the Terminator C++-to-Python transpiler
(`terminator.py` + `rules.py`): the internal AST node model, the
tree visitor, the rule engine, the two rewrite rules, and the
Python code generator, with theorems about the spec's testable
properties.
-/

set_option maxHeartbeats 1000000

namespace Terminator

/-- Literal values carried by `Literal` nodes (`terminator.py`, class
`Literal`): the parser produces Python `int` and `str` values. -/
inductive LitVal where
  | int (n : Int)
  | str (s : String)
deriving DecidableEq

/-- The internal AST (`terminator.py`, classes `Node` ... `Literal`),
plus the `PythonForLoop` node kind synthesized at rewrite time by
`ForLoopToRangeRule.visit` in `rules.py`.  Fields that the Python
constructors may leave as `None` (`VarDecl.init`; `ForLoop.init/cond/inc`
when absent) are `Option`s. -/
inductive Node where
  | TranslationUnit (body : List Node)
  | FunctionDecl (name : String) (params : List Node) (body : List Node)
      (returnType : String)
  | VarDecl (name : String) (varType : String) (init : Option Node)
  | CallExpr (callee : Node) (args : List Node)
  | BinaryOp (op : String) (left : Node) (right : Node)
  | UnaryOp (op : String) (operand : Node)
  | ForLoop (init : Option Node) (cond : Option Node) (inc : Option Node)
      (body : List Node)
  | Identifier (name : String)
  | Literal (value : LitVal)
  | PythonForLoop (target : Node) (iter : Node) (body : List Node)

/-- Python scalars (non-`Node` values a visitor may be handed). -/
inductive Scalar where
  | int (n : Int)
  | str (s : String)
  | none
deriving DecidableEq

/-- A value flowing through `NodeVisitor.visit`: an AST node or a plain
scalar (`terminator.py` line 192: `if not isinstance(node, Node)`). -/
inductive Value where
  | node (n : Node)
  | scalar (s : Scalar)

/-- Python runtime errors that the modelled code can raise. -/
inductive PyErr where
  | attributeError
deriving DecidableEq

/-! ## rules.py: ForLoopToRangeRule -/

namespace ForLoopToRangeRule

/-- Check 1 of `ForLoopToRangeRule.visit` (`rules.py` lines 31-36):
`isinstance(init, VarDecl) and isinstance(init.init, Literal) and
init.init.value == 0`; on success the loop variable is `init.name`. -/
def initLoopVar : Option Node → Option String
  | some (.VarDecl name _ (some (.Literal (.int 0)))) => some name
  | _ => none

/-- Check 2 (`rules.py` lines 38-44): `isinstance(cond, BinaryOp) and
cond.op == '<' and isinstance(cond.left, Identifier) and
cond.left.name == loop_var`; on success the upper bound is `cond.right`. -/
def condUpperBound (cond : Option Node) (loopVar : String) : Option Node :=
  match cond with
  | some (.BinaryOp op left right) =>
    if op = "<" then
      match left with
      | .Identifier lname => if lname = loopVar then some right else none
      | _ => none
    else none
  | _ => none

/-- Check 3 (`rules.py` lines 46-50): `isinstance(inc, UnaryOp) and
inc.op == '++' and isinstance(inc.operand, Identifier) and
inc.operand.name == loop_var`. -/
def incMatches (inc : Option Node) (loopVar : String) : Bool :=
  match inc with
  | some (.UnaryOp op (.Identifier nm)) => op = "++" && nm = loopVar
  | _ => false

/-- The node returned by `ForLoopToRangeRule.visit` (`rules.py` lines
23-94): each failed check returns the node unchanged; when all three
checks pass the rule returns
`PythonForLoop(target=Identifier(loop_var), iter=upper_bound, body=node.body)`. -/
def visit (n : Node) : Node :=
  match n with
  | .ForLoop init cond inc body =>
    match initLoopVar init with
    | Option.none => n
    | some loopVar =>
      match condUpperBound cond loopVar with
      | Option.none => n
      | some upperBound =>
        if incMatches inc loopVar then
          .PythonForLoop (.Identifier loopVar) upperBound body
        else n
  | _ => n

/-- Whether all three checks of `ForLoopToRangeRule.visit` pass, i.e.
whether the rule reaches the code path (`rules.py` lines 86-88) that
monkey-patches `visit_PythonForLoop` onto `PythonCodeGenerator`. -/
def matched (n : Node) : Bool :=
  match n with
  | .ForLoop init cond inc _ =>
    match initLoopVar init with
    | Option.none => false
    | some loopVar =>
      match condUpperBound cond loopVar with
      | Option.none => false
      | some _ => incMatches inc loopVar
  | _ => false

/-- `ForLoopToRangeRule.visit` together with its effect on shared state:
the boolean tracks whether `PythonCodeGenerator` already has a
`visit_PythonForLoop` attribute.  On a full match the rule sets that class
attribute (idempotently, behind a `hasattr` guard, `rules.py` lines
87-88); on any failed check it returns before reaching the patch. -/
def visitS (n : Node) (genPatched : Bool) : Node × Bool :=
  (visit n, genPatched || matched n)

end ForLoopToRangeRule

/-! ## rules.py: StdCoutToPrintRule -/

namespace StdCoutToPrintRule

/-- `isinstance(x, Identifier) and x.name == 'std::cout'` (`rules.py` line 103). -/
def isCoutIdent : Node → Bool
  | .Identifier name => name = "std::cout"
  | _ => false

/-- `isinstance(x, BinaryOp) and x.op == '<<'` (`rules.py` lines 99, 105, 130). -/
def isLShift : Node → Bool
  | .BinaryOp op _ _ => op = "<<"
  | _ => false

/-- `isinstance(x, Identifier) and x.name == 'std::endl'` (`rules.py` line 124). -/
def isEndl : Node → Bool
  | .Identifier name => name = "std::endl"
  | _ => false

/-- `StdCoutToPrintRule._flatten_cout_chain` (`rules.py` lines 117-133):
the right operand is appended (unless it is the `std::endl` identifier,
which is dropped), after the recursively flattened left spine whenever the
left operand is a `<<` BinaryOp.  Only ever called on a BinaryOp. -/
def flattenCoutChain : Node → List Node
  | .BinaryOp _ left right =>
    let args := if isEndl right then [] else [right]
    (if isLShift left then flattenCoutChain left else []) ++ args
  | _ => []

/-- `StdCoutToPrintRule.visit` (`rules.py` lines 98-115): requires a
BinaryOp with op `<<`; requires the left operand to be the identifier
`std::cout` or itself a `<<` BinaryOp (a nested chain); on match returns
`CallExpr(callee=Identifier('print'), args=flattened chain)`. -/
def visit (n : Node) : Node :=
  match n with
  | .BinaryOp op left right =>
    if op ≠ "<<" then n
    else if !isCoutIdent left && !isLShift left then n
    else .CallExpr (.Identifier "print") (flattenCoutChain (.BinaryOp op left right))
  | _ => n

/-- The match guard of `StdCoutToPrintRule.visit`. -/
def matched (n : Node) : Bool :=
  match n with
  | .BinaryOp op left _ => op = "<<" && (isCoutIdent left || isLShift left)
  | _ => false

/-- `StdCoutToPrintRule.visit` with the shared generator-patch state
threaded through: this rule never touches it. -/
def visitS (n : Node) (genPatched : Bool) : Node × Bool :=
  (visit n, genPatched)

end StdCoutToPrintRule

/-- The rule set of `rules.py` (the concrete subclasses of `Rule`). -/
inductive RuleId where
  | forLoopToRange
  | stdCoutToPrint
deriving DecidableEq

/-- Node-level dispatch of `rule.visit` for each concrete rule. -/
def RuleId.visit : RuleId → Node → Node
  | .forLoopToRange => ForLoopToRangeRule.visit
  | .stdCoutToPrint => StdCoutToPrintRule.visit

/-! ## terminator.py: NodeVisitor (tree traversal) -/

namespace NodeVisitor

/-- `NodeVisitor.generic_visit` (`terminator.py` lines 199-206), with the
dynamically dispatched `self.visit` as a parameter: each list-valued field
has its items visited in place; each `Node`-valued field is replaced by its
visited form (a `None` field is neither a list nor a `Node` and is left
alone); scalar fields (strings, numbers) are untouched. -/
def genericVisit (selfVisit : Node → Node) : Node → Node
  | .TranslationUnit body => .TranslationUnit (body.map selfVisit)
  | .FunctionDecl name params body rt =>
      .FunctionDecl name (params.map selfVisit) (body.map selfVisit) rt
  | .VarDecl name ty ini => .VarDecl name ty (ini.map selfVisit)
  | .CallExpr callee args => .CallExpr (selfVisit callee) (args.map selfVisit)
  | .BinaryOp op l r => .BinaryOp op (selfVisit l) (selfVisit r)
  | .UnaryOp op o => .UnaryOp op (selfVisit o)
  | .ForLoop ini cond inc body =>
      .ForLoop (ini.map selfVisit) (cond.map selfVisit) (inc.map selfVisit)
        (body.map selfVisit)
  | .Identifier name => .Identifier name
  | .Literal v => .Literal v
  | .PythonForLoop target iter body =>
      .PythonForLoop (selfVisit target) (selfVisit iter) (body.map selfVisit)

mutual

/-- `NodeVisitor.visit` on an AST node for the base visitor class, which
has no `visit_<Kind>` handlers (`terminator.py` lines 191-206): every node
takes the `generic_visit` fallback, which recursively visits list items and
`Node` fields through `self.visit` and leaves scalar fields alone. -/
def visit : Node → Node
  | .TranslationUnit body => .TranslationUnit (visitList body)
  | .FunctionDecl name params body rt =>
      .FunctionDecl name (visitList params) (visitList body) rt
  | .VarDecl name ty ini => .VarDecl name ty (visitOpt ini)
  | .CallExpr callee args => .CallExpr (visit callee) (visitList args)
  | .BinaryOp op l r => .BinaryOp op (visit l) (visit r)
  | .UnaryOp op o => .UnaryOp op (visit o)
  | .ForLoop ini cond inc body =>
      .ForLoop (visitOpt ini) (visitOpt cond) (visitOpt inc) (visitList body)
  | .Identifier name => .Identifier name
  | .Literal v => .Literal v
  | .PythonForLoop target iter body =>
      .PythonForLoop (visit target) (visit iter) (visitList body)

/-- Item-wise visiting of a list-valued field (`value[i] = self.visit(item)`,
`terminator.py` lines 201-203). -/
def visitList : List Node → List Node
  | [] => []
  | x :: xs => visit x :: visitList xs

/-- Visiting of an optional `Node` field: `None` is left untouched, a node
is replaced by its visited form (`terminator.py` lines 204-205). -/
def visitOpt : Option Node → Option Node
  | some x => some (visit x)
  | Option.none => Option.none

end

end NodeVisitor

/-- `NodeVisitor.visit` (`terminator.py` lines 191-197) at the level of
arbitrary Python values: a non-`Node` value is returned unchanged before
any dispatch happens. -/
def NodeVisitor.visitValue : Value → Value
  | .scalar s => .scalar s
  | .node n => .node (NodeVisitor.visit n)

/-! ## terminator.py: RuleApplier (rule engine) -/

namespace RuleApplier

/-- The `for rule in self.rules: node = rule.visit(node)` loop of
`RuleApplier.visit` (`terminator.py` lines 215-217). -/
def rulesLoop : List RuleId → Node → Node
  | [], n => n
  | r :: rs, n => rulesLoop rs (r.visit n)

/-- `RuleApplier.visit` on an AST node (`terminator.py` lines 213-220):
first every rule, in list order, transforms the current node; then the
engine descends into the (possibly replaced) node's children via the
inherited `generic_visit`, whose recursive `self.visit` calls re-enter this
very method.  The Python recursion has no structural bound (a rule may
return an arbitrary node), so the embedding carries explicit fuel: one unit
is spent per tree level. -/
def visit (rules : List RuleId) : Nat → Node → Node
  | 0, n => n
  | fuel + 1, n => NodeVisitor.genericVisit (visit rules fuel) (rulesLoop rules n)

end RuleApplier

/-- `RuleApplier.visit` at the level of arbitrary Python values
(`terminator.py` lines 213-220): unlike `NodeVisitor.visit`, the override
has no `isinstance(node, Node)` guard.  Each `rule.visit` returns a
non-`Node` argument unchanged (every isinstance check in `rules.py` fails),
but `generic_visit` then reads `node.__dict__`, which raises
`AttributeError` for plain scalars (int, str, None). -/
def RuleApplier.visitValue (rules : List RuleId) (fuel : Nat) :
    Value → Except PyErr Value
  | .scalar _ => .error .attributeError
  | .node n => .ok (.node (RuleApplier.visit rules fuel n))

/-! ## terminator.py: PythonCodeGenerator -/

namespace PythonCodeGenerator

/-- `PythonCodeGenerator._map_type` (`terminator.py` lines 319-330): strips
the `const ` qualifier, then looks the type up in a fixed table; an unknown
type yields no annotation. -/
def mapType (cppType : String) : Option String :=
  let t := cppType.replace "const " ""
  if t = "int" then some "int"
  else if t = "float" then some "float"
  else if t = "double" then some "float"
  else if t = "bool" then some "bool"
  else if t = "std::string" then some "str"
  else if t = "string" then some "str"
  else if t = "void" then some "None"
  else Option.none

/-- `PythonCodeGenerator._indent` (`terminator.py` lines 230-231):
`"    " * self._indent_level` (a non-positive level gives `""`, as in
Python). -/
def indentStr (lvl : Int) : String :=
  String.join (List.replicate lvl.toNat "    ")

/-- `isinstance(stmt, ast.Node) and hasattr(stmt, 'body')` together with
the `stmt.body` read (`rules.py` lines 77-78): the node kinds carrying a
`body` attribute are `TranslationUnit`, `FunctionDecl`, `ForLoop` and the
synthesized `PythonForLoop`. -/
def bodyField : Node → Option (List Node)
  | .TranslationUnit body => some body
  | .FunctionDecl _ _ body _ => some body
  | .ForLoop _ _ _ body => some body
  | .PythonForLoop _ _ body => some body
  | _ => Option.none

/-- `isinstance(child, Identifier)` (`terminator.py` line 237). -/
def isIdentifierNode : Node → Bool
  | .Identifier _ => true
  | _ => false

mutual

/-- `PythonCodeGenerator.visit` (`terminator.py` lines 225-317): renders a
node to Python text.  The second component is the mutable `_indent_level`
after the call; handlers that render a block increment it around the block
body and decrement it before returning. -/
def visit : Node → Int → String × Int
  | .TranslationUnit body, lvl =>
    -- visit_TranslationUnit (lines 236-237): children that are bare
    -- Identifiers are skipped; the rest are joined by blank lines.
    let r := visitFiltered body lvl
    (String.intercalate "\n\n" r.1, r.2)
  | .FunctionDecl name params body returnType, lvl =>
    -- visit_FunctionDecl (lines 239-263).
    let ps := visitList params lvl
    let paramsStr := String.intercalate ", " ps.1
    let returnHint :=
      match mapType returnType with
      | some py => if py ≠ "None" then " -> " ++ py else ""
      | Option.none => ""
    let header := "def " ++ name ++ "(" ++ paramsStr ++ ")" ++ returnHint ++ ":\n"
    let l1 := ps.2 + 1
    let b :=
      if body.isEmpty then (indentStr l1 ++ "pass\n", l1)
      else stmtLines body l1
    let l2 := b.2 - 1
    let mainBlock :=
      if name = "main" then "\n\nif __name__ == \"__main__\":\n    main()" else ""
    (header ++ b.1 ++ mainBlock, l2)
  | .VarDecl name varType ini, lvl =>
    -- visit_VarDecl (lines 265-273).
    let typeHint :=
      match mapType varType with
      | some py => ": " ++ py
      | Option.none => ""
    match ini with
    | some i =>
      let r := visit i lvl
      (name ++ typeHint ++ " = " ++ r.1, r.2)
    | Option.none => (name ++ typeHint ++ " = None", lvl)
  | .CallExpr callee args, lvl =>
    -- visit_CallExpr (lines 275-278).
    let c := visit callee lvl
    let a := visitList args c.2
    (c.1 ++ "(" ++ String.intercalate ", " a.1 ++ ")", a.2)
  | .BinaryOp op left right, lvl =>
    -- visit_BinaryOp (lines 280-283).
    let l := visit left lvl
    let r := visit right l.2
    ("(" ++ l.1 ++ " " ++ op ++ " " ++ r.1 ++ ")", r.2)
  | .UnaryOp op operand, lvl =>
    -- visit_UnaryOp (lines 285-290).
    let o := visit operand lvl
    if op = "++" then (o.1 ++ " += 1", o.2)
    else if op = "--" then (o.1 ++ " -= 1", o.2)
    else (op ++ o.1, o.2)
  | .ForLoop ini cond inc body, lvl =>
    -- visit_ForLoop, the fallback for untransformed loops (lines 292-309).
    let iS := optRender ini "# init" lvl
    let cS := optRender cond "# cond" iS.2
    let kS := optRender inc "# inc" cS.2
    let code := "# Original C++ for loop was not transformed\n" ++ iS.1 ++ "\n"
      ++ "while " ++ cS.1 ++ ":\n"
    let l1 := kS.2 + 1
    let b := stmtLines body l1
    (code ++ b.1 ++ indentStr b.2 ++ kS.1 ++ "\n", b.2 - 1)
  | .Identifier name, lvl => (name, lvl)
  | .Literal v, lvl =>
    -- visit_Literal (lines 314-317): strings are double-quoted, numbers
    -- rendered by str().
    match v with
    | .str s => ("\"" ++ s ++ "\"", lvl)
    | .int k => (toString k, lvl)
  | .PythonForLoop target iter body, lvl =>
    -- visit_PythonForLoop, installed on the generator by
    -- ForLoopToRangeRule (rules.py lines 67-84).
    let t := visit target lvl
    let i := visit iter t.2
    let header := "for " ++ t.1 ++ " in range(" ++ i.1 ++ "):\n"
    let l1 := i.2 + 1
    let b :=
      if body.isEmpty then (indentStr l1 ++ "pass\n", l1)
      else pflBody body l1
    (header ++ b.1, b.2 - 1)
termination_by n _ => sizeOf n
decreasing_by all_goals (simp_wf <;> omega)

/-- The conditional expressions `self.visit(node.init) if node.init else
"# init"` of `visit_ForLoop` (`terminator.py` lines 295-297): render the
node when present, otherwise fall back to a placeholder comment. -/
def optRender : Option Node → String → Int → String × Int
  | some x, _, lvl => visit x lvl
  | Option.none, dflt, lvl => (dflt, lvl)
termination_by o _ _ => sizeOf o
decreasing_by all_goals (simp_wf <;> omega)

/-- Rendering of the items of a list field in order, threading the
indentation state (the joined generator expressions of
`visit_FunctionDecl` line 240 and `visit_CallExpr` line 277). -/
def visitList : List Node → Int → List String × Int
  | [], lvl => ([], lvl)
  | x :: xs, lvl =>
    let r := visit x lvl
    let rest := visitList xs r.2
    (r.1 :: rest.1, rest.2)
termination_by l _ => sizeOf l
decreasing_by all_goals (simp_wf <;> omega)

/-- The generator expression of `visit_TranslationUnit` (line 237): visit
each child that is not a bare `Identifier`, in order. -/
def visitFiltered : List Node → Int → List String × Int
  | [], lvl => ([], lvl)
  | x :: xs, lvl =>
    if isIdentifierNode x then visitFiltered xs lvl
    else
      let r := visit x lvl
      let rest := visitFiltered xs r.2
      (r.1 :: rest.1, rest.2)
termination_by l _ => sizeOf l
decreasing_by all_goals (simp_wf <;> omega)

/-- The `code += f"{self._indent()}{self.visit(stmt)}\n"` statement loop
(`terminator.py` lines 254-255 and 304-305, `rules.py` lines 79 and 81):
one rendered statement per line, prefixed by the current indentation. -/
def stmtLines : List Node → Int → String × Int
  | [], lvl => ("", lvl)
  | stmt :: rest, lvl =>
    let ind := indentStr lvl
    let s := visit stmt lvl
    let r := stmtLines rest s.2
    (ind ++ s.1 ++ "\n" ++ r.1, r.2)
termination_by l _ => sizeOf l
decreasing_by all_goals (simp_wf <;> omega)

/-- The body loop of `visit_PythonForLoop` (`rules.py` lines 75-81): a body
element that is a `Node` with a `body` attribute contributes only the
rendered elements of that inner `body` field (the element's own structure
is dropped); any other element is rendered as itself. -/
def pflBody : List Node → Int → String × Int
  | [], lvl => ("", lvl)
  | stmt :: rest, lvl =>
    match h : bodyField stmt with
    | some sub =>
      let s := stmtLines sub lvl
      let r := pflBody rest s.2
      (s.1 ++ r.1, r.2)
    | Option.none =>
      let ind := indentStr lvl
      let s := visit stmt lvl
      let r := pflBody rest s.2
      (ind ++ s.1 ++ "\n" ++ r.1, r.2)
termination_by l _ => sizeOf l
decreasing_by
  all_goals simp_wf
  all_goals try omega
  have hlt : sizeOf sub < sizeOf x := by
    cases x <;> simp [bodyField] at h <;> subst h <;> simp <;> omega
  omega

end

end PythonCodeGenerator

/-! ## Helper lemmas -/

theorem stringJoin_cons (s : String) (l : List String) :
    String.join (s :: l) = s ++ String.join l := by
  apply String.ext
  simp [String.join_eq]

theorem stringJoin_nil : String.join [] = "" := rfl

mutual

theorem NodeVisitor.visit_id : ∀ n : Node, NodeVisitor.visit n = n
  | .TranslationUnit body => by
    rw [NodeVisitor.visit, NodeVisitor.visitList_id body]
  | .FunctionDecl name params body rt => by
    rw [NodeVisitor.visit, NodeVisitor.visitList_id params,
      NodeVisitor.visitList_id body]
  | .VarDecl name ty ini => by
    rw [NodeVisitor.visit, NodeVisitor.visitOpt_id ini]
  | .CallExpr callee args => by
    rw [NodeVisitor.visit, NodeVisitor.visit_id callee,
      NodeVisitor.visitList_id args]
  | .BinaryOp op l r => by
    rw [NodeVisitor.visit, NodeVisitor.visit_id l, NodeVisitor.visit_id r]
  | .UnaryOp op o => by
    rw [NodeVisitor.visit, NodeVisitor.visit_id o]
  | .ForLoop ini cond inc body => by
    rw [NodeVisitor.visit, NodeVisitor.visitOpt_id ini,
      NodeVisitor.visitOpt_id cond, NodeVisitor.visitOpt_id inc,
      NodeVisitor.visitList_id body]
  | .Identifier name => by rw [NodeVisitor.visit]
  | .Literal v => by rw [NodeVisitor.visit]
  | .PythonForLoop target iter body => by
    rw [NodeVisitor.visit, NodeVisitor.visit_id target,
      NodeVisitor.visit_id iter, NodeVisitor.visitList_id body]

theorem NodeVisitor.visitList_id : ∀ l : List Node, NodeVisitor.visitList l = l
  | [] => by rw [NodeVisitor.visitList]
  | x :: xs => by
    rw [NodeVisitor.visitList, NodeVisitor.visit_id x,
      NodeVisitor.visitList_id xs]

theorem NodeVisitor.visitOpt_id : ∀ o : Option Node, NodeVisitor.visitOpt o = o
  | some x => by rw [NodeVisitor.visitOpt, NodeVisitor.visit_id x]
  | Option.none => by rw [NodeVisitor.visitOpt]

end

mutual

theorem PythonCodeGenerator.visit_level :
    ∀ (n : Node) (lvl : Int), (PythonCodeGenerator.visit n lvl).2 = lvl
  | .TranslationUnit body, lvl => by
    simp [PythonCodeGenerator.visit,
      PythonCodeGenerator.visitFiltered_level body lvl]
  | .FunctionDecl name params body rt, lvl => by
    have h1 := PythonCodeGenerator.visitList_level params lvl
    have h2 := PythonCodeGenerator.stmtLines_level body (lvl + 1)
    simp [PythonCodeGenerator.visit, h1]
    split <;> simp [h2]
  | .VarDecl name ty (some i), lvl => by
    simp [PythonCodeGenerator.visit, PythonCodeGenerator.visit_level i lvl]
  | .VarDecl name ty Option.none, lvl => by
    simp [PythonCodeGenerator.visit]
  | .CallExpr callee args, lvl => by
    simp [PythonCodeGenerator.visit,
      PythonCodeGenerator.visit_level callee lvl,
      PythonCodeGenerator.visitList_level args lvl]
  | .BinaryOp op left right, lvl => by
    simp [PythonCodeGenerator.visit,
      PythonCodeGenerator.visit_level left lvl,
      PythonCodeGenerator.visit_level right lvl]
  | .UnaryOp op operand, lvl => by
    have h := PythonCodeGenerator.visit_level operand lvl
    simp only [PythonCodeGenerator.visit]
    split <;> (try split) <;> simp [h]
  | .ForLoop ini cond inc body, lvl => by
    have h1 := PythonCodeGenerator.optRender_level ini "# init" lvl
    have h2 := PythonCodeGenerator.optRender_level cond "# cond" lvl
    have h3 := PythonCodeGenerator.optRender_level inc "# inc" lvl
    have h4 := PythonCodeGenerator.stmtLines_level body (lvl + 1)
    simp [PythonCodeGenerator.visit, h1, h2, h3, h4]
  | .Identifier name, lvl => by simp [PythonCodeGenerator.visit]
  | .Literal v, lvl => by cases v <;> simp [PythonCodeGenerator.visit]
  | .PythonForLoop target iter body, lvl => by
    have h1 := PythonCodeGenerator.visit_level target lvl
    have h2 := PythonCodeGenerator.visit_level iter lvl
    have h3 := PythonCodeGenerator.pflBody_level body (lvl + 1)
    simp [PythonCodeGenerator.visit, h1, h2]
    split <;> simp [h3]
termination_by n _ => sizeOf n
decreasing_by all_goals (simp_wf <;> omega)

theorem PythonCodeGenerator.optRender_level :
    ∀ (o : Option Node) (dflt : String) (lvl : Int),
      (PythonCodeGenerator.optRender o dflt lvl).2 = lvl
  | some x, dflt, lvl => by
    simp [PythonCodeGenerator.optRender,
      PythonCodeGenerator.visit_level x lvl]
  | Option.none, dflt, lvl => by simp [PythonCodeGenerator.optRender]
termination_by o _ _ => sizeOf o
decreasing_by all_goals (simp_wf <;> omega)

theorem PythonCodeGenerator.visitList_level :
    ∀ (l : List Node) (lvl : Int), (PythonCodeGenerator.visitList l lvl).2 = lvl
  | [], lvl => by simp [PythonCodeGenerator.visitList]
  | x :: xs, lvl => by
    simp [PythonCodeGenerator.visitList,
      PythonCodeGenerator.visit_level x lvl,
      PythonCodeGenerator.visitList_level xs lvl]
termination_by l _ => sizeOf l
decreasing_by all_goals (simp_wf <;> omega)

theorem PythonCodeGenerator.visitFiltered_level :
    ∀ (l : List Node) (lvl : Int),
      (PythonCodeGenerator.visitFiltered l lvl).2 = lvl
  | [], lvl => by simp [PythonCodeGenerator.visitFiltered]
  | x :: xs, lvl => by
    by_cases hx : PythonCodeGenerator.isIdentifierNode x <;>
      simp [PythonCodeGenerator.visitFiltered, hx,
        PythonCodeGenerator.visit_level x lvl,
        PythonCodeGenerator.visitFiltered_level xs lvl]
termination_by l _ => sizeOf l
decreasing_by all_goals (simp_wf <;> omega)

theorem PythonCodeGenerator.stmtLines_level :
    ∀ (l : List Node) (lvl : Int), (PythonCodeGenerator.stmtLines l lvl).2 = lvl
  | [], lvl => by simp [PythonCodeGenerator.stmtLines]
  | stmt :: rest, lvl => by
    simp [PythonCodeGenerator.stmtLines,
      PythonCodeGenerator.visit_level stmt lvl,
      PythonCodeGenerator.stmtLines_level rest lvl]
termination_by l _ => sizeOf l
decreasing_by all_goals (simp_wf <;> omega)

theorem PythonCodeGenerator.pflBody_level :
    ∀ (l : List Node) (lvl : Int), (PythonCodeGenerator.pflBody l lvl).2 = lvl
  | [], lvl => by simp [PythonCodeGenerator.pflBody]
  | stmt :: rest, lvl => by
    simp only [PythonCodeGenerator.pflBody]
    split
    · rename_i sub h
      simp [PythonCodeGenerator.stmtLines_level sub lvl,
        PythonCodeGenerator.pflBody_level rest lvl]
    · simp [PythonCodeGenerator.visit_level stmt lvl,
        PythonCodeGenerator.pflBody_level rest lvl]
termination_by l _ => sizeOf l
decreasing_by
  all_goals simp_wf
  all_goals try omega
  rename_i sub h1 h2 heq
  have hlt : sizeOf sub < sizeOf x := by
    cases x <;> simp [PythonCodeGenerator.bodyField] at heq <;> subst heq <;>
      simp <;> omega
  omega

end

theorem PythonCodeGenerator.visitList_eq (l : List Node) (lvl : Int) :
    PythonCodeGenerator.visitList l lvl =
      (l.map fun s => (PythonCodeGenerator.visit s lvl).1, lvl) := by
  induction l with
  | nil => simp [PythonCodeGenerator.visitList]
  | cons x xs ih =>
    simp [PythonCodeGenerator.visitList,
      PythonCodeGenerator.visit_level x lvl, ih]

theorem PythonCodeGenerator.stmtLines_eq (l : List Node) (lvl : Int) :
    PythonCodeGenerator.stmtLines l lvl =
      (String.join (l.map fun s =>
        PythonCodeGenerator.indentStr lvl
          ++ (PythonCodeGenerator.visit s lvl).1 ++ "\n"), lvl) := by
  induction l with
  | nil => simp [PythonCodeGenerator.stmtLines]; rfl
  | cons x xs ih =>
    simp [PythonCodeGenerator.stmtLines,
      PythonCodeGenerator.visit_level x lvl, ih, stringJoin_cons,
      String.append_assoc]

theorem PythonCodeGenerator.pflBody_eq (l : List Node) (lvl : Int) :
    PythonCodeGenerator.pflBody l lvl =
      (String.join (l.map fun stmt =>
        match PythonCodeGenerator.bodyField stmt with
        | some sub => (PythonCodeGenerator.stmtLines sub lvl).1
        | Option.none =>
          PythonCodeGenerator.indentStr lvl
            ++ (PythonCodeGenerator.visit stmt lvl).1 ++ "\n"), lvl) := by
  induction l with
  | nil => simp [PythonCodeGenerator.pflBody]; rfl
  | cons x xs ih =>
    simp only [PythonCodeGenerator.pflBody]
    split
    · rename_i sub h
      simp [PythonCodeGenerator.stmtLines_level sub lvl, ih, stringJoin_cons,
        h, String.append_assoc]
    · rename_i h
      simp [PythonCodeGenerator.visit_level x lvl, ih, stringJoin_cons, h,
        String.append_assoc]

theorem ForLoopToRangeRule.visit_eq_of_unmatched_loop (n : Node)
    (h : ForLoopToRangeRule.matched n = false) :
    ForLoopToRangeRule.visit n = n := by
  cases n <;> try rfl
  rename_i ini cond inc body
  cases hi : ForLoopToRangeRule.initLoopVar ini with
    | none => simp [ForLoopToRangeRule.visit, hi]
    | some loopVar =>
      cases hc : ForLoopToRangeRule.condUpperBound cond loopVar with
      | none => simp [ForLoopToRangeRule.visit, hi, hc]
      | some upperBound =>
        have hk : ForLoopToRangeRule.incMatches inc loopVar = false := by
          simpa [ForLoopToRangeRule.matched, hi, hc] using h
        simp [ForLoopToRangeRule.visit, hi, hc, hk]

theorem StdCoutToPrintRule.visit_eq_of_unmatched_chain (n : Node)
    (h : StdCoutToPrintRule.matched n = false) :
    StdCoutToPrintRule.visit n = n := by
  cases n <;> try rfl
  rename_i op left right
  by_cases hop : op = "<<"
  · have hl : StdCoutToPrintRule.isCoutIdent left = false ∧
        StdCoutToPrintRule.isLShift left = false := by
      simpa [StdCoutToPrintRule.matched, hop] using h
    simp [StdCoutToPrintRule.visit, hop, hl.1, hl.2]
  · simp [StdCoutToPrintRule.visit, hop]

theorem RuleApplier.rulesLoop_eq_foldl (rules : List RuleId) (n : Node) :
    RuleApplier.rulesLoop rules n =
      rules.foldl (fun m r => r.visit m) n := by
  induction rules generalizing n with
  | nil => simp [RuleApplier.rulesLoop]
  | cons r rs ih => simp [RuleApplier.rulesLoop, ih]

/-! ## Claims -/

/-- Claim C1, counterexample: the claim asserts that `StdCoutToPrintRule`
leaves unchanged every `<<` chain whose root identifier is not `std::cout`.
But the rule's guard (`rules.py` lines 103-106) also accepts any `<<`
BinaryOp whose left operand is itself a `<<` BinaryOp, without ever
checking the root of the left spine: the chain `((a << b) << c)`, rooted at
`a`, is rewritten to `print(b, c)` (and the root `a` is silently dropped by
`_flatten_cout_chain`). -/
theorem stdcout_nested_chain_counterexample :
    StdCoutToPrintRule.visit
      (Node.BinaryOp "<<"
        (Node.BinaryOp "<<" (Node.Identifier "a") (Node.Identifier "b"))
        (Node.Identifier "c")) =
      Node.CallExpr (Node.Identifier "print")
        [Node.Identifier "b", Node.Identifier "c"] ∧
    Node.CallExpr (Node.Identifier "print")
        [Node.Identifier "b", Node.Identifier "c"] ≠
      Node.BinaryOp "<<"
        (Node.BinaryOp "<<" (Node.Identifier "a") (Node.Identifier "b"))
        (Node.Identifier "c") :=
  ⟨rfl, fun h => Node.noConfusion h⟩

/-- Claim C1, amended: every rule returns a node that fails its actual
guard unchanged (structurally equal).  `StdCoutToPrintRule`'s actual guard
accepts a `<<` BinaryOp whose left operand is the identifier `std::cout`
or is itself a `<<` BinaryOp; consequently only single-operator chains
rooted at an identifier other than `std::cout` are left unchanged, while
deeper chains are rewritten regardless of their root. -/
theorem nonmatching_rule_identity_amended :
    (∀ n : Node, ForLoopToRangeRule.matched n = false →
      ForLoopToRangeRule.visit n = n) ∧
    (∀ n : Node, StdCoutToPrintRule.matched n = false →
      StdCoutToPrintRule.visit n = n) ∧
    (∀ (name : String) (rhs : Node), name ≠ "std::cout" →
      StdCoutToPrintRule.visit
          (Node.BinaryOp "<<" (Node.Identifier name) rhs) =
        Node.BinaryOp "<<" (Node.Identifier name) rhs) := by
  refine ⟨ForLoopToRangeRule.visit_eq_of_unmatched_loop,
    StdCoutToPrintRule.visit_eq_of_unmatched_chain, ?_⟩
  intro name rhs hname
  apply StdCoutToPrintRule.visit_eq_of_unmatched_chain
  simp [StdCoutToPrintRule.matched, StdCoutToPrintRule.isCoutIdent,
    StdCoutToPrintRule.isLShift, hname]

/-- Claim C1, witness: concrete instances of the amended theorem — an
unrelated node and a non-matching loop for each rule, and a depth-one
chain rooted at the identifier `out`. -/
theorem nonmatching_rule_identity_witness :
    ForLoopToRangeRule.visit (Node.Identifier "z") = Node.Identifier "z" ∧
    StdCoutToPrintRule.visit (Node.Literal (LitVal.int 7)) =
      Node.Literal (LitVal.int 7) ∧
    StdCoutToPrintRule.visit
        (Node.BinaryOp "<<" (Node.Identifier "out")
          (Node.Literal (LitVal.str "hi"))) =
      Node.BinaryOp "<<" (Node.Identifier "out")
        (Node.Literal (LitVal.str "hi")) :=
  ⟨nonmatching_rule_identity_amended.1 (Node.Identifier "z") rfl,
    nonmatching_rule_identity_amended.2.1 (Node.Literal (LitVal.int 7)) rfl,
    nonmatching_rule_identity_amended.2.2 "out"
      (Node.Literal (LitVal.str "hi")) (by decide)⟩

/-- Claim C2: the rule engine's `visit` (`terminator.py` lines 213-220)
has pre-order, rewrite-before-descend semantics: one step first applies
every rule in list order to the current node (the output of rule k feeding
rule k+1, i.e. a left fold), and only then descends into the children of
the resulting (possibly replaced) node via the generic traversal, each
child being processed by the engine itself. -/
theorem rule_engine_rewrite_before_descend
    (rules : List RuleId) (fuel : Nat) (n : Node) :
    RuleApplier.visit rules (fuel + 1) n =
      NodeVisitor.genericVisit (RuleApplier.visit rules fuel)
        (rules.foldl (fun m r => r.visit m) n) := by
  simp only [RuleApplier.visit, RuleApplier.rulesLoop_eq_foldl]

/-- Claim C3, counterexample: the claim asserts that applying any rule
mutates no state outside the returned subtree.  But on a matching counted
loop, `ForLoopToRangeRule.visit` monkey-patches the `visit_PythonForLoop`
renderer onto the `PythonCodeGenerator` class (`rules.py` lines 86-88):
starting from an unpatched generator class, the patch flag flips. -/
theorem forloop_rule_mutates_generator_counterexample :
    (ForLoopToRangeRule.visitS
      (Node.ForLoop
        (some (Node.VarDecl "i" "int" (some (Node.Literal (LitVal.int 0)))))
        (some (Node.BinaryOp "<" (Node.Identifier "i") (Node.Identifier "N")))
        (some (Node.UnaryOp "++" (Node.Identifier "i"))) []) false).2 ≠
      false := by
  decide

/-- Claim C3, amended: `StdCoutToPrintRule` mutates no outside state at
all, and `ForLoopToRangeRule` mutates no outside state on non-matching
nodes; its only effect, on a matching loop, is to register the
`visit_PythonForLoop` renderer on the `PythonCodeGenerator` class, an
idempotent registration (once the class is patched it stays patched and a
second match changes nothing). -/
theorem rules_pure_except_registration :
    (∀ (n : Node) (g : Bool),
      StdCoutToPrintRule.visitS n g = (StdCoutToPrintRule.visit n, g)) ∧
    (∀ (n : Node) (g : Bool), ForLoopToRangeRule.matched n = false →
      ForLoopToRangeRule.visitS n g = (n, g)) ∧
    (∀ n : Node, (ForLoopToRangeRule.visitS n true).2 = true) := by
  refine ⟨fun n g => rfl, ?_, fun n => by simp [ForLoopToRangeRule.visitS]⟩
  intro n g h
  simp [ForLoopToRangeRule.visitS, h,
    ForLoopToRangeRule.visit_eq_of_unmatched_loop n h]

/-- Claim C3, witness: the amended theorem at a non-matching node. -/
theorem rules_pure_except_registration_witness :
    ForLoopToRangeRule.visitS (Node.Identifier "q") false =
      (Node.Identifier "q", false) :=
  rules_pure_except_registration.2.1 (Node.Identifier "q") false rfl

/-- Claim C4, counterexample: the claim asserts that every visitor,
including `RuleApplier.visit`, returns a non-`Node` value unchanged
without error.  But `RuleApplier.visit` overrides `visit` without the
`isinstance(node, Node)` guard, so after the rules decline a scalar,
`generic_visit` reads `node.__dict__` and raises `AttributeError`. -/
theorem ruleapplier_scalar_error_counterexample :
    RuleApplier.visitValue [] 1 (Value.scalar (Scalar.int 42)) =
      Except.error PyErr.attributeError := rfl

/-- Claim C4, amended: the base tree visitor `NodeVisitor.visit` returns
every non-`Node` value unchanged (and the code generator inherits this
`visit`), but the rule engine's overriding `RuleApplier.visit` instead
raises `AttributeError` on every non-`Node` value, for any rule list and
any recursion budget. -/
theorem scalar_visit_amended :
    (∀ s : Scalar, NodeVisitor.visitValue (Value.scalar s) = Value.scalar s) ∧
    (∀ (rules : List RuleId) (fuel : Nat) (s : Scalar),
      RuleApplier.visitValue rules fuel (Value.scalar s) =
        Except.error PyErr.attributeError) :=
  ⟨fun _ => rfl, fun _ _ _ => rfl⟩

/-- Claim C5: the canonical counted loop
`for (int i = 0; i < N; i++) { body }` is rewritten by
`ForLoopToRangeRule` to the bounded-iteration node
`PythonForLoop(Identifier "i", Identifier "N", body)`, and at indentation
level zero the generator renders that node as
`"for i in range(N):\n"` followed by each body statement on its own line,
one indent (four spaces) deeper.  (Body elements carrying a `body`
attribute are rendered differently by the generator — see the
flattening behaviour of `visit_PythonForLoop` — so they are excluded
here.) -/
theorem counted_loop_positive (body : List Node) (hne : body ≠ [])
    (hb : ∀ stmt ∈ body, PythonCodeGenerator.bodyField stmt = Option.none) :
    ForLoopToRangeRule.visit
      (Node.ForLoop
        (some (Node.VarDecl "i" "int" (some (Node.Literal (LitVal.int 0)))))
        (some (Node.BinaryOp "<" (Node.Identifier "i") (Node.Identifier "N")))
        (some (Node.UnaryOp "++" (Node.Identifier "i"))) body) =
      Node.PythonForLoop (Node.Identifier "i") (Node.Identifier "N") body ∧
    PythonCodeGenerator.visit
        (Node.PythonForLoop (Node.Identifier "i") (Node.Identifier "N") body)
        0 =
      ("for i in range(N):\n" ++ String.join (body.map fun stmt =>
        "    " ++ (PythonCodeGenerator.visit stmt 1).1 ++ "\n"), 0) := by
  constructor
  · rfl
  · have hne' : body.isEmpty = false := by
      cases body with
      | nil => exact absurd rfl hne
      | cons x xs => rfl
    have hind : PythonCodeGenerator.indentStr 1 = "    " := rfl
    have hmap : ∀ a ∈ body,
        (match PythonCodeGenerator.bodyField a with
          | some sub => (PythonCodeGenerator.stmtLines sub 1).1
          | Option.none =>
            PythonCodeGenerator.indentStr 1
              ++ (PythonCodeGenerator.visit a 1).1 ++ "\n") =
          "    " ++ (PythonCodeGenerator.visit a 1).1 ++ "\n" := by
      intro a ha
      simp [hb a ha, hind]
    simp only [PythonCodeGenerator.visit, hne']
    rw [PythonCodeGenerator.pflBody_eq]
    simp [List.map_congr_left hmap]

/-- Claim C5, witness: the canonical loop with body `[x]`. -/
theorem counted_loop_positive_witness :
    ForLoopToRangeRule.visit
      (Node.ForLoop
        (some (Node.VarDecl "i" "int" (some (Node.Literal (LitVal.int 0)))))
        (some (Node.BinaryOp "<" (Node.Identifier "i") (Node.Identifier "N")))
        (some (Node.UnaryOp "++" (Node.Identifier "i")))
        [Node.Identifier "x"]) =
      Node.PythonForLoop (Node.Identifier "i") (Node.Identifier "N")
        [Node.Identifier "x"] ∧
    PythonCodeGenerator.visit
        (Node.PythonForLoop (Node.Identifier "i") (Node.Identifier "N")
          [Node.Identifier "x"]) 0 =
      ("for i in range(N):\n    x\n", 0) := by
  have h := counted_loop_positive [Node.Identifier "x"]
    (by simp) (by simp [PythonCodeGenerator.bodyField])
  refine ⟨h.1, h.2.trans ?_⟩
  simp [PythonCodeGenerator.visit, stringJoin_cons, stringJoin_nil]

/-- Claim C6: the chain `std::cout << "a" << x << std::endl` is rewritten
by `StdCoutToPrintRule` to `CallExpr(Identifier "print",
[Literal "a", Identifier "x"])` — the `std::endl` sentinel dropped, the
remaining operands in left-to-right order — and the generator renders the
call as `print("a", x)`. -/
theorem stream_chain_flattening :
    StdCoutToPrintRule.visit
      (Node.BinaryOp "<<"
        (Node.BinaryOp "<<"
          (Node.BinaryOp "<<" (Node.Identifier "std::cout")
            (Node.Literal (LitVal.str "a")))
          (Node.Identifier "x"))
        (Node.Identifier "std::endl")) =
      Node.CallExpr (Node.Identifier "print")
        [Node.Literal (LitVal.str "a"), Node.Identifier "x"] ∧
    (PythonCodeGenerator.visit
        (Node.CallExpr (Node.Identifier "print")
          [Node.Literal (LitVal.str "a"), Node.Identifier "x"]) 0).1 =
      "print(\"a\", x)" := by
  refine ⟨rfl, ?_⟩
  simp only [PythonCodeGenerator.visit, PythonCodeGenerator.visitList]
  rfl

/-- Claim C7: a `ForLoop` whose init declares its variable with value
`Literal(1)` (not `0`) fails the rule's first check and is returned
unchanged, and the generator renders it via the fallback form: the
"not transformed" comment, the rendered init as a statement, a
`while <rendered cond>:` block containing the rendered body statements and
then the rendered increment as the block's last line. -/
theorem counted_loop_negative (x ty : String) (c k : Node)
    (body : List Node) (lvl : Int) :
    ForLoopToRangeRule.visit
      (Node.ForLoop
        (some (Node.VarDecl x ty (some (Node.Literal (LitVal.int 1)))))
        (some c) (some k) body) =
      Node.ForLoop
        (some (Node.VarDecl x ty (some (Node.Literal (LitVal.int 1)))))
        (some c) (some k) body ∧
    PythonCodeGenerator.visit
        (Node.ForLoop
          (some (Node.VarDecl x ty (some (Node.Literal (LitVal.int 1)))))
          (some c) (some k) body) lvl =
      ("# Original C++ for loop was not transformed\n"
        ++ (PythonCodeGenerator.visit
              (Node.VarDecl x ty (some (Node.Literal (LitVal.int 1)))) lvl).1
        ++ "\n" ++ "while " ++ (PythonCodeGenerator.visit c lvl).1 ++ ":\n"
        ++ String.join (body.map fun stmt =>
            PythonCodeGenerator.indentStr (lvl + 1)
              ++ (PythonCodeGenerator.visit stmt (lvl + 1)).1 ++ "\n")
        ++ PythonCodeGenerator.indentStr (lvl + 1)
        ++ (PythonCodeGenerator.visit k lvl).1 ++ "\n", lvl) := by
  constructor
  · rfl
  · have h1 := PythonCodeGenerator.visit_level
      (Node.VarDecl x ty (some (Node.Literal (LitVal.int 1)))) lvl
    have h2 := PythonCodeGenerator.visit_level c lvl
    have h3 := PythonCodeGenerator.visit_level k lvl
    have h4 := PythonCodeGenerator.stmtLines_eq body (lvl + 1)
    simp only [PythonCodeGenerator.visit, PythonCodeGenerator.optRender,
      h1, h2, h3, h4]
    simp [String.append_assoc]

/-- Claim C8: visiting any tree with the base `NodeVisitor`, which has no
kind-specific handlers, takes the generic recurse-into-children fallback
at every node and returns a tree structurally equal to the input. -/
theorem identity_traversal_roundtrip (n : Node) : NodeVisitor.visit n = n :=
  NodeVisitor.visit_id n

/-- Claim C9: every render handler of `PythonCodeGenerator` restores the
`_indent_level` on every exit path: after visiting any node at any entry
level, the generator's indentation level equals the entry level.  (In the
embedded semantics every handler is total on well-formed nodes, so no
error exit paths arise.) -/
theorem indent_level_restored (n : Node) (lvl : Int) :
    (PythonCodeGenerator.visit n lvl).2 = lvl :=
  PythonCodeGenerator.visit_level n lvl

/-- Claim C10: when `visit_PythonForLoop` renders the loop body, a body
element that is a `Node` carrying a `body` attribute contributes only the
rendered elements of that inner `body` field, one per line — the element's
own structure is not rendered at all — while elements without a `body`
attribute are rendered as themselves, one per line. -/
theorem pfl_body_attr_flattening (t i : Node) (body : List Node)
    (lvl : Int) (hne : body ≠ []) :
    PythonCodeGenerator.visit (Node.PythonForLoop t i body) lvl =
      ("for " ++ (PythonCodeGenerator.visit t lvl).1 ++ " in range("
        ++ (PythonCodeGenerator.visit i lvl).1 ++ "):\n"
        ++ String.join (body.map fun stmt =>
          match PythonCodeGenerator.bodyField stmt with
          | some sub => String.join (sub.map fun u =>
              PythonCodeGenerator.indentStr (lvl + 1)
                ++ (PythonCodeGenerator.visit u (lvl + 1)).1 ++ "\n")
          | Option.none =>
            PythonCodeGenerator.indentStr (lvl + 1)
              ++ (PythonCodeGenerator.visit stmt (lvl + 1)).1 ++ "\n"),
        lvl) := by
  have hne' : body.isEmpty = false := by
    cases body with
    | nil => exact absurd rfl hne
    | cons x xs => rfl
  have ht := PythonCodeGenerator.visit_level t lvl
  have hi := PythonCodeGenerator.visit_level i lvl
  have hmap : ∀ a ∈ body,
      (fun stmt =>
        match PythonCodeGenerator.bodyField stmt with
        | some sub => (PythonCodeGenerator.stmtLines sub (lvl + 1)).1
        | Option.none =>
          PythonCodeGenerator.indentStr (lvl + 1)
            ++ (PythonCodeGenerator.visit stmt (lvl + 1)).1 ++ "\n") a =
        (fun stmt =>
        match PythonCodeGenerator.bodyField stmt with
        | some sub => String.join (sub.map fun u =>
            PythonCodeGenerator.indentStr (lvl + 1)
              ++ (PythonCodeGenerator.visit u (lvl + 1)).1 ++ "\n")
        | Option.none =>
          PythonCodeGenerator.indentStr (lvl + 1)
            ++ (PythonCodeGenerator.visit stmt (lvl + 1)).1 ++ "\n") a := by
    intro a ha
    cases h : PythonCodeGenerator.bodyField a with
    | some sub => simp [h, PythonCodeGenerator.stmtLines_eq sub (lvl + 1)]
    | none => simp [h]
  have hmap2 := List.map_congr_left hmap
  simp only [PythonCodeGenerator.visit, hne', ht, hi]
  rw [PythonCodeGenerator.pflBody_eq, hmap2]
  simp

/-- Claim C10, witness: a bounded-iteration node whose single body element
is a `ForLoop` with inner body `[x, y]`: only `x` and `y` are rendered;
the `ForLoop`'s own structure (comment, init, `while` header) is absent
from the output. -/
theorem pfl_body_attr_flattening_witness :
    PythonCodeGenerator.visit
      (Node.PythonForLoop (Node.Identifier "i") (Node.Identifier "N")
        [Node.ForLoop Option.none Option.none Option.none
          [Node.Identifier "x", Node.Identifier "y"]]) 0 =
      ("for i in range(N):\n    x\n    y\n", 0) := by
  have h := pfl_body_attr_flattening (Node.Identifier "i")
    (Node.Identifier "N")
    [Node.ForLoop Option.none Option.none Option.none
      [Node.Identifier "x", Node.Identifier "y"]] 0 (by simp)
  refine h.trans ?_
  simp [PythonCodeGenerator.visit, PythonCodeGenerator.bodyField,
    PythonCodeGenerator.indentStr, stringJoin_cons, stringJoin_nil,
    List.replicate]

end Terminator
